import Mathlib

/-
Verification development for the daily-facts service: a shallow embedding of
the RAG fact pipeline (src/gemini_client.py), the uniqueness tracker
(src/utils/fact_tracker.py), the message index (src/utils/vector_store.py),
the data models (src/models.py) and the score codec
(src/utils/score_decoder.py), together with proofs of its specified
properties.

Python strings are embedded as lists of characters (`PyStr`), so that Python
slicing, `lower()`, `strip()` and `split()` become plain list operations.
External services (the embedding provider, the generative-text adapter, the
vector-search backend) are modelled as explicit oracle arguments: a call
either raises (`none`) or returns a parsed value (`some _`).  Database
operations are modelled as total functions over an in-memory list of
documents; `md5` digests are modelled as the identity on the digested text
(the digest is injective for the purposes of set membership).
-/

abbrev PyStr := List Char

/-- Python `str.lower()` on the embedded string (per-character lowering). -/
def pyLower (s : PyStr) : PyStr := s.map Char.toLower

/-- Python `str.strip()`: drop whitespace from both ends of the string. -/
def pyStrip (s : PyStr) : PyStr :=
  ((s.dropWhile Char.isWhitespace).reverse.dropWhile Char.isWhitespace).reverse

/-! ### Fact uniqueness tracker — src/utils/fact_tracker.py

The tracker's state `used_facts` is the set of digests, embedded as a list
whose membership is what matters.  `fact_hash` is
`hashlib.md5(fact.lower().strip().encode()).hexdigest()`; the md5 digest is
modelled as the identity on the canonicalized text (injective digest). -/

/-- Model of `FactTracker.fact_hash`: canonicalize by `lower()` then `strip()`; the
md5 digest of the canonical text is modelled by the canonical text itself. -/
def fact_hash (fact : PyStr) : PyStr := pyStrip (pyLower fact)

/-- Model of `FactTracker.is_fact_used`: membership of the fact's hash in `used_facts`. -/
def is_fact_used (used_facts : List PyStr) (fact : PyStr) : Bool :=
  used_facts.contains (fact_hash fact)

/-- Model of `FactTracker.mark_fact_used`: add the fact's hash to `used_facts`
(the write-through save to disk has no further observable effect). -/
def mark_fact_used (used_facts : List PyStr) (fact : PyStr) : List PyStr :=
  fact_hash fact :: used_facts

/-! ### Message index — src/utils/vector_store.py

Documents of the `messages` collection.  `embedding` vectors are opaque
integers lists produced by the embedding oracle; `created_at` is the wall
clock passed in by the caller. -/

structure StoredMessage where
  message_id : PyStr
  author_id : PyStr
  author_name : PyStr
  content : PyStr
  channel_id : PyStr
  channel_name : PyStr
  timestamp : Nat
  mentions : List PyStr
  mention_user_ids : List PyStr
  embedding : List Int
  content_for_search : PyStr
  created_at : Nat
deriving DecidableEq

/-- The inbound `message_data` dict as built by `prepare_message_data`
(src/events.py): the raw fields, before the index adds derived ones. -/
structure MessageData where
  message_id : PyStr
  author_id : PyStr
  author_name : PyStr
  content : PyStr
  channel_id : PyStr
  channel_name : PyStr
  timestamp : Nat
  mentions : List PyStr
  mention_user_ids : List PyStr
deriving DecidableEq

/-- The composed embedding text of `VectorStore.store_message` (lines
124–137): author identity, content and channel each on its own line, plus a
mentions line when the message mentions anyone. -/
def content_for_embedding (md : MessageData) : PyStr :=
  let userLine := "User: ".data ++ md.author_name ++ " (ID: ".data ++ md.author_id ++ ")".data
  let messageLine := "Message: ".data ++ md.content
  let channelLine := "Channel: ".data ++ md.channel_name
  let base := [userLine, messageLine, channelLine]
  let parts :=
    if md.mention_user_ids.isEmpty then base
    else base ++ ["Mentions: ".data ++ List.intercalate ", ".data md.mentions
      ++ " (IDs: ".data ++ List.intercalate ", ".data md.mention_user_ids ++ ")".data]
  List.intercalate "\n".data parts

/-- Model of `VectorStore.message_exists`: existence probe by unique message id; a
missing id yields `false`, never an error (database reads are total here). -/
def message_exists (message_id : PyStr) (store : List StoredMessage) : Bool :=
  store.any (fun d => d.message_id == message_id)

/-- The document `store_message` inserts: the spread of `message_data` plus
the derived `embedding`, `content_for_search` and `created_at` fields. -/
def storedDocument (md : MessageData) (embed : PyStr → List Int) (now : Nat) :
    StoredMessage :=
  { message_id := md.message_id
    author_id := md.author_id
    author_name := md.author_name
    content := md.content
    channel_id := md.channel_id
    channel_name := md.channel_name
    timestamp := md.timestamp
    mentions := md.mentions
    mention_user_ids := md.mention_user_ids
    embedding := embed (content_for_embedding md)
    content_for_search := content_for_embedding md
    created_at := now }

/-- Model of `VectorStore.store_message` (lines 112–155): skip silently when the id
already exists, otherwise embed the composed text and insert the document.
`embed` is the OpenAI embedding oracle, `now` the insertion clock. -/
def store_message (md : MessageData) (embed : PyStr → List Int) (now : Nat)
    (store : List StoredMessage) : List StoredMessage :=
  if message_exists md.message_id store then store
  else store ++ [storedDocument md embed now]

/-- Stable insertion step for a descending-timestamp sort. -/
def insertTsDesc (d : StoredMessage) : List StoredMessage → List StoredMessage
  | [] => [d]
  | e :: es => if e.timestamp < d.timestamp then d :: e :: es else e :: insertTsDesc d es

/-- MongoDB `.sort("timestamp", -1)`: the matched documents ordered by
timestamp, most recent first (stable insertion sort). -/
def sortTsDesc : List StoredMessage → List StoredMessage
  | [] => []
  | d :: ds => insertTsDesc d (sortTsDesc ds)

/-- A Mongo `find(filter).sort("timestamp", -1).limit(n)` cursor: filter,
order most-recent-first, take at most `n` documents. -/
def findSortedLimited (p : StoredMessage → Bool) (n : Nat)
    (store : List StoredMessage) : List StoredMessage :=
  (sortTsDesc (store.filter p)).take n

/-- Model of `VectorStore.get_player_context_by_id` (lines 249–282): up to `limit`
documents authored by `user_id`, then up to `limit / 2` documents whose
`mention_user_ids` array contains `user_id`, each most-recent-first. -/
def get_player_context_by_id (user_id : PyStr) (limit : Nat)
    (store : List StoredMessage) : List StoredMessage :=
  let direct_messages := findSortedLimited (fun d => d.author_id == user_id) limit store
  let mentioned_messages :=
    findSortedLimited (fun d => d.mention_user_ids.contains user_id) (limit / 2) store
  direct_messages ++ mentioned_messages

/-- Model of `VectorStore.search_mentions` (lines 284–303): up to `limit` documents
mentioning `user_id`, most recent first. -/
def search_mentions (user_id : PyStr) (limit : Nat)
    (store : List StoredMessage) : List StoredMessage :=
  findSortedLimited (fun d => d.mention_user_ids.contains user_id) limit store

/-- Substring containment on embedded Python strings. -/
def occursIn (term hay : PyStr) : Bool :=
  hay.tails.any (fun t => term.isPrefixOf t)

/-- Whether a document matches a MongoDB `$text` query: some
whitespace-separated query term occurs (case-insensitively) in the indexed
`content`, `author_name` or `content_for_search` fields.  This approximates
Mongo's stemmed word matching by case-folded substring containment. -/
def textMatches (query : PyStr) (d : StoredMessage) : Bool :=
  let hay := pyLower (d.content ++ " ".data ++ d.author_name ++ " ".data ++ d.content_for_search)
  (query.splitOn ' ').any (fun term => ¬ term.isEmpty ∧ occursIn (pyLower term) hay)

/-- Model of `VectorStore._fallback_text_search` (lines 201–221): `$text` keyword
search over the collection, capped at `limit`, in natural cursor order. -/
def fallback_text_search (query : PyStr) (limit : Nat)
    (store : List StoredMessage) : List StoredMessage :=
  (store.filter (textMatches query)).take limit

/-- Model of `VectorStore.search_similar_messages` (lines 157–199): the embedding
call plus `$vectorSearch` pipeline is an external backend, modelled by the
oracle `vectorOutcome` — `some docs` when the backend returns `docs`,
`none` when any part of the try-block raises.  On failure the except-clause
returns `_fallback_text_search(query, limit)`. -/
def search_similar_messages (vectorOutcome : Option (List StoredMessage))
    (query : PyStr) (limit : Nat) (store : List StoredMessage) : List StoredMessage :=
  match vectorOutcome with
  | some docs => docs
  | none => fallback_text_search query limit store

/-! ### Generation orchestrator — src/gemini_client.py

Each Gemini call is one element of a response stream: `none` when the call
raises (transport error or schema-validation failure), `some fact` when it
returns a validated fact string.  Alongside the returned fact the embedding
reports which tracker state the call ended in and whether the returned fact
was recorded in the tracker at return time (the `mark_fact_used` just before
`return fact` in the source); this instrumentation flag adds no behaviour. -/

/-- Pop the next adapter response; an exhausted stream behaves as a raising
call. -/
def takeResp : List (Option PyStr) → Option PyStr × List (Option PyStr)
  | [] => (none, [])
  | r :: rest => (r, rest)

/-- The literal returned when the fifth generation attempt raises
(gemini_client.py line 175). -/
def fallbackTryingBest : PyStr :=
  "Did you know that this bot is trying its best to bring you interesting facts every day? 🤖".data

/-- The literal returned when the attempt loop exhausts without an unused
fact (gemini_client.py line 177). -/
def fallbackPersistence : PyStr :=
  "Did you know that persistence is key to success? Today's fact generation needed a few tries! 💪".data

/-- The attempt loop of `generate_unique_fact` with `fuel` attempts left.
Result: (returned fact, recorded-in-tracker flag, final `used_facts`,
remaining response stream). -/
def generate_unique_fact_aux :
    Nat → List (Option PyStr) → List PyStr → PyStr × Bool × List PyStr × List (Option PyStr)
  | 0, rs, used => (fallbackPersistence, false, used, rs)
  | n + 1, rs, used =>
    match takeResp rs with
    | (none, rest) =>
      if n = 0 then (fallbackTryingBest, false, used, rest)
      else generate_unique_fact_aux n rest used
    | (some fact, rest) =>
      if is_fact_used used fact then generate_unique_fact_aux n rest used
      else (fact, true, mark_fact_used used fact, rest)

/-- Model of `GeminiFactGenerator.generate_unique_fact` (lines 129–177): up to
`max_attempts = 5` adapter calls; an unused fact is marked and returned, a
raising final attempt returns one literal, an exhausted loop the other. -/
def generate_unique_fact (rs : List (Option PyStr)) (used : List PyStr) :
    PyStr × Bool × List PyStr × List (Option PyStr) :=
  generate_unique_fact_aux 5 rs used

/-- The literal fallback of `generate_general_player_fact` (line 127). -/
def generalPlayerFallback (player_name : PyStr) : PyStr :=
  "Did you know that ".data ++ player_name
    ++ " is an awesome member of our gaming community? 🎮".data

/-- Model of `GeminiFactGenerator.generate_general_player_fact` (lines 99–127): one
adapter call; its fact is returned without a uniqueness check and without
marking; a raising call returns the name-templated literal. -/
def generate_general_player_fact (player_name : PyStr) (rs : List (Option PyStr))
    (used : List PyStr) : PyStr × Bool × List PyStr × List (Option PyStr) :=
  match takeResp rs with
  | (none, rest) => (generalPlayerFallback player_name, false, used, rest)
  | (some fact, rest) => (fact, false, used, rest)

/-- The merged context `generate_player_fact_with_rag` assembles for a known
stable user id (lines 30–34): `get_player_context_by_id(user_id, limit=15)`
extended with `search_mentions(user_id, limit=5)`. -/
def ragContextById (user_id : PyStr) (store : List StoredMessage) : List StoredMessage :=
  get_player_context_by_id user_id 15 store ++ search_mentions user_id 5 store

/-- One invocation of the fact entry point with a known stable user id:
optional display name, the message index contents and this call's adapter
response stream. -/
structure RagCall where
  player_name : Option PyStr
  user_id : PyStr
  store : List StoredMessage
  responses : List (Option PyStr)
deriving DecidableEq

/-- Model of `GeminiFactGenerator.generate_player_fact_with_rag` (lines 19–97) for a
call with a known `user_id` (the random-subject and name-only branches are
not taken then): assemble the context; with no context fall back to
`generate_unique_fact`; otherwise one adapter call — an unused fact is
marked and returned, a used one falls back to `generate_general_player_fact`,
and a raising call is caught by the outer except which returns
`generate_unique_fact`.  Result: (fact, recorded flag, final `used_facts`). -/
def generate_player_fact_with_rag (c : RagCall) (used : List PyStr) :
    PyStr × Bool × List PyStr :=
  let context := ragContextById c.user_id c.store
  if context.isEmpty then
    let r := generate_unique_fact c.responses used
    (r.1, r.2.1, r.2.2.1)
  else
    match takeResp c.responses with
    | (none, rest) =>
      let r := generate_unique_fact rest used
      (r.1, r.2.1, r.2.2.1)
    | (some fact, rest) =>
      if is_fact_used used fact then
        let target := c.player_name.getD
          ((context.head?.map (fun d => d.author_name)).getD "Unknown Player".data)
        let r := generate_general_player_fact target rest used
        (r.1, r.2.1, r.2.2.1)
      else (fact, true, mark_fact_used used fact)

/-- A sequence of calls to the fact entry point, threading the tracker
state; returns each call's (fact, recorded flag) plus the final state. -/
def runRagSeq : List RagCall → List PyStr → List (PyStr × Bool) × List PyStr
  | [], used => ([], used)
  | c :: cs, used =>
    let r := generate_player_fact_with_rag c used
    let rest := runRagSeq cs r.2.2
    ((r.1, r.2.1) :: rest.1, rest.2)

/-- The per-snippet text slices fed into the short-fact prompt (lines 44–47):
the `msg.get('content', '')[:200]` excerpt of each of the first 10 context
entries. -/
def rag_prompt_snippets (context : List StoredMessage) : List PyStr :=
  (context.take 10).map (fun msg => msg.content.take 200)

/-- The per-snippet text slices fed into the personality prompt (lines
204–207): the `msg.get('content', '')[:300]` excerpt of each of the first 15
context entries. -/
def personality_prompt_snippets (context : List StoredMessage) : List PyStr :=
  (context.take 15).map (fun msg => msg.content.take 300)

/-! ### Data models — src/models.py -/

/-- Model of `PersonalityCard` (models.py lines 24–30): the schema constrains field
names and element types only; the trait lists carry no length constraint. -/
structure PersonalityCard where
  name : PyStr
  positive_traits : List PyStr
  negative_traits : List PyStr
  yaps_about : PyStr
  fun_stat : PyStr
deriving DecidableEq

/-- The no-context fallback card of `generate_personality_card` (lines
195–201). -/
def personalityFallbackNoContext (player_name : PyStr) : PersonalityCard :=
  { name := player_name
    positive_traits := ["Mysterious".data, "Unique".data, "Independent".data]
    negative_traits := ["Elusive".data, "Hard to read".data, "Keeps secrets".data]
    yaps_about := "the mysteries of life".data
    fun_stat := player_name ++
      " is so mysterious, even their own shadow doesn't know what they're thinking! 🕵️".data }

/-- The error fallback card of `generate_personality_card` (lines 249–255). -/
def personalityFallbackError (player_name : PyStr) : PersonalityCard :=
  { name := player_name
    positive_traits := ["Friendly".data, "Active".data, "Engaging".data]
    negative_traits := ["Sometimes quiet".data, "Mysterious".data, "Unpredictable".data]
    yaps_about := "various interesting topics".data
    fun_stat := player_name ++
      " is like a good book - interesting, but we're still figuring out the plot! 📚".data }

/-- The merged context `generate_personality_card` assembles for a known
user id (lines 183–187): `get_player_context_by_id(user_id, limit=20)`
extended with `search_mentions(user_id, limit=8)`. -/
def personalityContextById (user_id : PyStr) (store : List StoredMessage) :
    List StoredMessage :=
  get_player_context_by_id user_id 20 store ++ search_mentions user_id 8 store

/-- Model of `GeminiFactGenerator.generate_personality_card` (lines 179–255) for a
call with a known `user_id`: empty context returns the no-context fallback
card; otherwise the adapter response — `some card` is any value validating
against the `PersonalityCard` schema and is returned as-is, `none` (a
raising call) returns the error fallback card. -/
def generate_personality_card (player_name : PyStr) (user_id : PyStr)
    (store : List StoredMessage) (response : Option PersonalityCard) : PersonalityCard :=
  let context := personalityContextById user_id store
  if context.isEmpty then personalityFallbackNoContext player_name
  else
    match response with
    | some card => card
    | none => personalityFallbackError player_name

/-- Model of `ScoreRecord` (models.py lines 33–41); floats are modelled as rationals. -/
structure ScoreRecord where
  user_id : PyStr
  username : PyStr
  kills : Int
  deaths : Int
  kd_ratio : ℚ
  submitted_at : Nat
  guild_id : PyStr

/-- Model of `ScoreRecord.create` (models.py lines 43–55):
`kd_ratio = kills / deaths if deaths > 0 else float(kills)`. -/
def ScoreRecord.create (user_id username : PyStr) (kills deaths : Int)
    (guild_id : PyStr) (now : Nat) : ScoreRecord :=
  { user_id := user_id
    username := username
    kills := kills
    deaths := deaths
    kd_ratio := if deaths > 0 then (kills : ℚ) / (deaths : ℚ) else (kills : ℚ)
    submitted_at := now
    guild_id := guild_id }

/-! ### Score codec — src/utils/score_decoder.py -/

/-- Model of `OBF_MAP_REVERSE.get(char, "?")`: per-character deobfuscation. -/
def obfDecodeChar : Char → Char
  | 'Q' => '0' | 'W' => '1' | 'E' => '2' | 'R' => '3' | 'T' => '4'
  | 'Y' => '5' | 'U' => '6' | 'I' => '7' | 'O' => '8' | 'P' => '9'
  | 'A' => '|' | 'S' => '+'
  | _ => '?'

/-- Model of `decode_score_code`: decode every character of the obfuscated part. -/
def decode_score_code (encoded_part : PyStr) : PyStr := encoded_part.map obfDecodeChar

/-- The `compute_checksum` character set `"0123456789+|"`. -/
def checksumCharset : PyStr := "0123456789+|".data

/-- The weighted value one character contributes to the checksum sum:
`charset.index(char) * 7` for charset members, nothing otherwise. -/
def checksumCharScore (c : Char) : Nat :=
  if checksumCharset.contains c then checksumCharset.indexOf c * 7 else 0

/-- Model of `compute_checksum` (score_decoder.py lines 18–36): sum the weighted
character values over the decoded string and render `sum % 100` in decimal. -/
def compute_checksum (decoded_str : PyStr) : PyStr :=
  (Nat.repr ((decoded_str.map checksumCharScore).sum % 100)).data

/-- Python `code.split("-", 1)` preceded by the `"-" not in code` test:
`none` when there is no separator, otherwise the parts before and after the
first `'-'`. -/
def splitOnceDash : PyStr → Option (PyStr × PyStr)
  | [] => none
  | c :: rest =>
    if c = '-' then some ([], rest)
    else (splitOnceDash rest).map (fun p => (c :: p.1, p.2))

/-- The outcome of `decode_and_verify`: an early format error (a dict with
`valid: False` and only an error message), or the full checked dict with its
`valid` flag, decoded string and both checksums. -/
inductive VerifyOutcome where
  | formatError (error : PyStr)
  | checked (valid : Bool) (decoded expected_checksum provided_checksum : PyStr)
deriving DecidableEq

/-- Model of `decode_and_verify` (score_decoder.py lines 57–105): split at the first
`'-'`, reject empty parts, decode, reject unknown characters and any decoded
form without exactly one `'|'`, then compare the recomputed checksum with
the provided one. -/
def decode_and_verify (code : PyStr) : VerifyOutcome :=
  match splitOnceDash code with
  | none => .formatError "Invalid format: missing checksum separator".data
  | some (encoded_part, checksum_part) =>
    if encoded_part.isEmpty ∨ checksum_part.isEmpty then
      .formatError "Invalid format: empty parts".data
    else
      let decoded := decode_score_code encoded_part
      if decoded.contains '?' then
        .formatError "Invalid characters in score code".data
      else if decoded.count '|' ≠ 1 then
        .formatError "Invalid score format".data
      else
        let expected := compute_checksum decoded
        .checked (expected == checksum_part) decoded expected checksum_part

/-- Whether `decode_and_verify` accepts the code as valid. -/
def acceptsCode (code : PyStr) : Bool :=
  match decode_and_verify code with
  | .checked true _ _ _ => true
  | _ => false

/-- Python `int(str)` as used on the split score parts: an optional sign
followed by at least one ASCII digit (surrounding whitespace and underscore
grouping, which the decoder's charset can never produce, are not modelled). -/
def pyIntOfDigits (s : PyStr) : Option Nat :=
  if s.isEmpty ∨ ¬ s.all Char.isDigit then none
  else some (s.foldl (fun acc c => acc * 10 + (c.toNat - '0'.toNat)) 0)

/-- Python `int()` including a leading sign. -/
def pyInt : PyStr → Option Int
  | '-' :: rest => (pyIntOfDigits rest).map (fun n => -(n : Int))
  | '+' :: rest => (pyIntOfDigits rest).map (fun n => (n : Int))
  | s => (pyIntOfDigits s).map (fun n => (n : Int))

/-- The outcome of `parse_score_data`: an error dict, or the valid dict with
kills, deaths and the derived `kd_ratio`. -/
inductive ScoreParse where
  | parseError (error : PyStr)
  | ok (kills deaths : Int) ( kd_ratio : ℚ)
deriving DecidableEq

/-- Model of `parse_score_data` (score_decoder.py lines 108–141): split on `'|'`,
require exactly two integer parts, reject negative or oversized counters,
and derive `kd_ratio = kills / deaths if deaths > 0 else float(kills)`. -/
def parse_score_data (decoded_str : PyStr) : ScoreParse :=
  match decoded_str.splitOn '|' with
  | [p1, p2] =>
    match pyInt p1, pyInt p2 with
    | some kills, some deaths =>
      if kills < 0 ∨ deaths < 0 then
        .parseError "Invalid score values: negative numbers".data
      else if kills > 999999 ∨ deaths > 999999 then
        .parseError "Invalid score values: unrealistic numbers".data
      else
        .ok kills deaths (if deaths > 0 then (kills : ℚ) / (deaths : ℚ) else (kills : ℚ))
    | _, _ => .parseError "Invalid score format: non-numeric values".data
  | _ => .parseError "Invalid score format".data

/-! ### Concrete inputs used by counterexamples and witnesses -/

/-- The constant-zero embedding oracle. -/
def embedZero : PyStr → List Int := fun _ => []

/-- A minimal stored document: id `m<i>`, timestamp `i`, given author and
mention list. -/
def mdoc (i : Nat) (author : PyStr) (ments : List PyStr) : StoredMessage :=
  { message_id := "m".data ++ (Nat.repr i).data
    author_id := author
    author_name := author
    content := "hello world".data
    channel_id := "c1".data
    channel_name := "general".data
    timestamp := i
    mentions := []
    mention_user_ids := ments
    embedding := []
    content_for_search := []
    created_at := 0 }

/-- Eight indexed messages from author `x`, each mentioning `A1`, with
distinct timestamps 1..8. -/
def demoStore8 : List StoredMessage :=
  (List.range 8).map (fun i => mdoc (i + 1) "x".data ["A1".data])

/-- One indexed message authored by user `u1`. -/
def demoDoc1 : StoredMessage := mdoc 1 "u1".data []

/-- First entry-point call: one adapter response with the fresh fact `f`. -/
def demoCall1 : RagCall :=
  { player_name := none, user_id := "u1".data, store := [demoDoc1],
    responses := [some "f".data] }

/-- Second entry-point call: the adapter produces the (by then used) fact
`f` twice — once for the RAG attempt, once for the general-player retry. -/
def demoCall2 : RagCall :=
  { player_name := none, user_id := "u1".data, store := [demoDoc1],
    responses := [some "f".data, some "f".data] }

/-- An entry-point call whose adapter raises on every invocation. -/
def demoFailCall : RagCall :=
  { player_name := none, user_id := "u1".data, store := [demoDoc1],
    responses := [none, none, none, none, none] }

/-- An inbound message record for the ingestion witness. -/
def demoMessageData : MessageData :=
  { message_id := "m1".data
    author_id := "u1".data
    author_name := "Ava".data
    content := "hello world".data
    channel_id := "c1".data
    channel_name := "general".data
    timestamp := 1
    mentions := []
    mention_user_ids := [] }

/-- An adapter response validating against the `PersonalityCard` schema but
carrying four positive traits. -/
def demoCard4 : PersonalityCard :=
  { name := "Ava".data
    positive_traits := ["Kind".data, "Bold".data, "Calm".data, "Witty".data]
    negative_traits := ["Loud".data, "Late".data, "Messy".data]
    yaps_about := "games".data
    fun_stat := "stat".data }

/-! ## Helper lemmas -/

theorem mem_of_insertTsDesc {x d : StoredMessage} {l : List StoredMessage}
    (h : x ∈ insertTsDesc d l) : x = d ∨ x ∈ l := by
  induction l with
  | nil => simpa [insertTsDesc] using h
  | cons e es ih =>
    by_cases hlt : e.timestamp < d.timestamp
    · rw [insertTsDesc, if_pos hlt] at h
      rcases List.mem_cons.mp h with h | h
      · exact Or.inl h
      · exact Or.inr h
    · rw [insertTsDesc, if_neg hlt] at h
      rcases List.mem_cons.mp h with h | h
      · exact Or.inr (h ▸ List.mem_cons_self e es)
      · rcases ih h with h | h
        · exact Or.inl h
        · exact Or.inr (List.mem_cons_of_mem e h)

theorem mem_of_sortTsDesc {x : StoredMessage} {l : List StoredMessage}
    (h : x ∈ sortTsDesc l) : x ∈ l := by
  induction l with
  | nil => simpa [sortTsDesc] using h
  | cons d ds ih =>
    rcases mem_of_insertTsDesc (l := sortTsDesc ds) h with h | h
    · exact h ▸ List.mem_cons_self d ds
    · exact List.mem_cons_of_mem d (ih h)

theorem mem_findSortedLimited {x : StoredMessage} {p : StoredMessage → Bool}
    {n : Nat} {store : List StoredMessage}
    (h : x ∈ findSortedLimited p n store) : x ∈ store ∧ p x = true := by
  have hx : x ∈ store.filter p := mem_of_sortTsDesc (List.mem_of_mem_take h)
  exact List.mem_filter.mp hx

theorem length_findSortedLimited (p : StoredMessage → Bool) (n : Nat)
    (store : List StoredMessage) : (findSortedLimited p n store).length ≤ n :=
  List.length_take_le n _

/-! ## Claim theorems -/

/-- Claim C5: if the similarity-search backend throws (the vector-search
oracle reports failure), `search_similar_messages` returns exactly the list
`_fallback_text_search` returns for the same query and limit, and no error
is surfaced (the function is total). -/
theorem search_similar_messages_fallback (query : PyStr) (limit : Nat)
    (store : List StoredMessage) :
    search_similar_messages none query limit store = fallback_text_search query limit store := rfl

/-- Claim C7: prompt construction takes at most 10 snippets for short facts
and 15 for personality profiles, and each included snippet text is the
content truncated to at most 200 (resp. 300) characters. -/
theorem prompt_snippets_bounded (context : List StoredMessage) :
    (rag_prompt_snippets context).length ≤ 10
    ∧ (∀ s ∈ rag_prompt_snippets context, s.length ≤ 200)
    ∧ (personality_prompt_snippets context).length ≤ 15
    ∧ (∀ s ∈ personality_prompt_snippets context, s.length ≤ 300) := by
  refine ⟨?_, ?_, ?_, ?_⟩
  · simpa [rag_prompt_snippets] using List.length_take_le 10 context
  · intro s hs
    rcases List.mem_map.mp hs with ⟨msg, _, rfl⟩
    exact List.length_take_le 200 _
  · simpa [personality_prompt_snippets] using List.length_take_le 15 context
  · intro s hs
    rcases List.mem_map.mp hs with ⟨msg, _, rfl⟩
    exact List.length_take_le 300 _

/-- Claim C3: ingestion is idempotent — re-ingesting a record with an
already-stored message id (even with a different embedding oracle or clock)
leaves the index unchanged, a first ingestion yields exactly one record
with that id, and the existence probe answers `false` (never errors) for an
id that is not stored. -/
theorem store_message_idempotent (md md' : MessageData) (embed embed' : PyStr → List Int)
    (now now' : Nat) (store : List StoredMessage)
    (hid : md'.message_id = md.message_id) :
    store_message md' embed' now' (store_message md embed now store)
      = store_message md embed now store
    ∧ (message_exists md.message_id store = false →
        (store_message md embed now store).countP
          (fun d => d.message_id == md.message_id) = 1)
    ∧ ∀ id : PyStr, (∀ d ∈ store, d.message_id ≠ id) → message_exists id store = false := by
  have hkey : message_exists md.message_id (store_message md embed now store) = true := by
    by_cases hex : message_exists md.message_id store
    · unfold store_message
      rw [if_pos hex]
      exact hex
    · unfold store_message
      rw [if_neg hex]
      simp [message_exists, List.any_append, storedDocument]
  refine ⟨?_, ?_, ?_⟩
  · set S := store_message md embed now store with hS
    have hkey' : message_exists md'.message_id S = true := by rw [hid]; exact hkey
    unfold store_message
    simp [hkey']
  · intro hex
    have hall : ∀ d ∈ store, ¬ (d.message_id == md.message_id) = true := by
      have hany : store.any (fun d => d.message_id == md.message_id) = false := hex
      exact fun d hd => by
        have := List.any_eq_false.mp hany d hd
        simpa using this
    have h0 : store.countP (fun d => d.message_id == md.message_id) = 0 :=
      List.countP_eq_zero.mpr hall
    unfold store_message
    simp [hex, List.countP_append, h0, storedDocument]
  · intro id hneq
    have : ∀ d ∈ store, ¬ (d.message_id == id) = true := by
      intro d hd
      simpa using hneq d hd
    simpa [message_exists] using List.any_eq_false.mpr this

/-- Witness for claim C3: one concrete ingestion into the empty index. -/
theorem store_message_idempotent_witness :
    store_message demoMessageData embedZero 0 (store_message demoMessageData embedZero 0 [])
      = store_message demoMessageData embedZero 0 []
    ∧ (message_exists demoMessageData.message_id [] = false →
        (store_message demoMessageData embedZero 0 []).countP
          (fun d => d.message_id == demoMessageData.message_id) = 1)
    ∧ ∀ id : PyStr, (∀ d ∈ ([] : List StoredMessage), d.message_id ≠ id) →
        message_exists id [] = false :=
  store_message_idempotent demoMessageData demoMessageData embedZero embedZero 0 0 [] rfl

/-- Claim C8: for non-negative counters the derived K/D ratio is
`kills / deaths` when `deaths > 0` and the numerator itself when
`deaths = 0`, with no division error, in both `ScoreRecord.create` and
`parse_score_data`. -/
theorem kd_ratio_zero_guard (user_id username guild_id : PyStr) (now : Nat)
    (kills deaths : Int) (hk : 0 ≤ kills) (hd : 0 ≤ deaths) :
    ((0 < deaths →
        ScoreRecord.kd_ratio (ScoreRecord.create user_id username kills deaths guild_id now)
          = (kills : ℚ) / (deaths : ℚ))
      ∧ (deaths = 0 →
        ScoreRecord.kd_ratio (ScoreRecord.create user_id username kills deaths guild_id now)
          = (kills : ℚ)))
    ∧ ∀ (s : PyStr) (k d : Int) (q : ℚ), parse_score_data s = ScoreParse.ok k d q →
        ((0 < d → q = (k : ℚ) / (d : ℚ)) ∧ (d = 0 → q = (k : ℚ))) := by
  constructor
  · constructor
    · intro hpos; simp [ScoreRecord.create, hpos]
    · intro hzero; simp [ScoreRecord.create, hzero]
  · intro s k d q h
    unfold parse_score_data at h
    repeat' split at h
    all_goals try exact ScoreParse.noConfusion h
    · rename_i hpos
      injection h with h1 h2 h3
      subst h1; subst h2; subst h3
      exact ⟨fun _ => rfl, fun h0 => absurd (h0 ▸ hpos) (lt_irrefl 0)⟩
    · rename_i hnpos
      injection h with h1 h2 h3
      subst h1; subst h2; subst h3
      exact ⟨fun hpos => absurd hpos hnpos, fun _ => rfl⟩

/-- Witness for claim C8: kills = 7, deaths = 0 in `ScoreRecord.create`. -/
theorem kd_ratio_zero_guard_witness :
    (0 < (0 : Int) →
      ScoreRecord.kd_ratio (ScoreRecord.create "u".data "n".data 7 0 "g".data 0)
        = ((7 : Int) : ℚ) / ((0 : Int) : ℚ))
    ∧ ((0 : Int) = 0 →
      ScoreRecord.kd_ratio (ScoreRecord.create "u".data "n".data 7 0 "g".data 0) = ((7 : Int) : ℚ)) :=
  (kd_ratio_zero_guard "u".data "n".data "g".data 0 7 0 (by decide) (by decide)).1

/-- Claim C9 counterexample: an adapter response with four positive traits
validates against the `PersonalityCard` schema (which does not bound the
trait lists) and is returned unchanged by `generate_personality_card`, so
not every returned profile has exactly three positive traits. -/
theorem personality_card_traits_counterexample :
    generate_personality_card "Ava".data "u1".data [demoDoc1] (some demoCard4) = demoCard4
    ∧ demoCard4.positive_traits.length ≠ 3 := by
  constructor
  · rfl
  · decide

/-- Claim C9 amended: both fallback profiles carry exactly three positive
and three negative traits; a schema-validated adapter response is returned
as-is (any trait-list length passes), never altered. -/
theorem personality_fallback_traits (player_name : PyStr) :
    (personalityFallbackNoContext player_name).positive_traits.length = 3
    ∧ (personalityFallbackNoContext player_name).negative_traits.length = 3
    ∧ (personalityFallbackError player_name).positive_traits.length = 3
    ∧ (personalityFallbackError player_name).negative_traits.length = 3
    ∧ ∀ (user_id : PyStr) (store : List StoredMessage) (card : PersonalityCard),
        generate_personality_card player_name user_id store (some card) = card
        ∨ generate_personality_card player_name user_id store (some card)
            = personalityFallbackNoContext player_name := by
  refine ⟨rfl, rfl, rfl, rfl, ?_⟩
  intro user_id store card
  by_cases h : (personalityContextById user_id store).isEmpty
  · right; simp [generate_personality_card, h]
  · left; simp [generate_personality_card, h]

theorem toLower_of_isWhitespace {c : Char} (h : c.isWhitespace = true) :
    Char.toLower c = c := by
  simp [Char.isWhitespace] at h
  rcases h with ((rfl | rfl) | rfl) | rfl <;> decide

theorem pyLower_all_whitespace {u : PyStr} (hu : ∀ c ∈ u, c.isWhitespace = true) :
    ∀ c ∈ pyLower u, c.isWhitespace = true := by
  intro c hc
  rcases List.mem_map.mp hc with ⟨c₀, hc₀, rfl⟩
  rw [toLower_of_isWhitespace (hu c₀ hc₀)]
  exact hu c₀ hc₀

theorem dropWhile_ws_append (a y : PyStr) (ha : ∀ c ∈ a, c.isWhitespace = true) :
    (a ++ y).dropWhile Char.isWhitespace = y.dropWhile Char.isWhitespace := by
  induction a with
  | nil => rfl
  | cons c cs ih =>
    rw [List.cons_append, List.dropWhile_cons, if_pos (ha c (List.mem_cons_self c cs))]
    exact ih fun c' hc' => ha c' (List.mem_cons_of_mem c hc')

theorem dropWhile_ws_eq_nil (b : PyStr) (hb : ∀ c ∈ b, c.isWhitespace = true) :
    b.dropWhile Char.isWhitespace = [] := by
  have := dropWhile_ws_append b [] hb
  simpa using this

theorem pyStrip_ws_left (a y : PyStr) (ha : ∀ c ∈ a, c.isWhitespace = true) :
    pyStrip (a ++ y) = pyStrip y := by
  unfold pyStrip
  rw [dropWhile_ws_append a y ha]

theorem pyStrip_ws_right (y b : PyStr) (hb : ∀ c ∈ b, c.isWhitespace = true) :
    pyStrip (y ++ b) = pyStrip y := by
  unfold pyStrip
  rw [List.dropWhile_append]
  by_cases h : (y.dropWhile Char.isWhitespace).isEmpty
  · rw [if_pos h]
    rw [dropWhile_ws_eq_nil b hb]
    have hy : y.dropWhile Char.isWhitespace = [] := by
      cases hde : y.dropWhile Char.isWhitespace with
      | nil => rfl
      | cons x xs => rw [hde] at h; simp [List.isEmpty] at h
    rw [hy]
  · rw [if_neg h]
    rw [List.reverse_append]
    rw [dropWhile_ws_append b.reverse _ (fun c hc => hb c (List.mem_reverse.mp hc))]

theorem fact_hash_outer_ws_core (a x b : PyStr)
    (ha : ∀ c ∈ a, c.isWhitespace = true) (hb : ∀ c ∈ b, c.isWhitespace = true) :
    fact_hash (a ++ x ++ b) = pyStrip (pyLower x) := by
  unfold fact_hash
  have hmap : pyLower (a ++ x ++ b) = pyLower a ++ (pyLower x ++ pyLower b) := by
    simp [pyLower]
  rw [hmap]
  rw [pyStrip_ws_left _ _ (pyLower_all_whitespace ha)]
  rw [pyStrip_ws_right _ _ (pyLower_all_whitespace hb)]

/-- Claim C4 counterexample: `'a b'` and `'ab'` differ only by whitespace
(after deleting all whitespace and case-folding they coincide), yet their
canonical hashes differ — `fact_hash` only trims the ends — and marking one
used does not make the other count as used. -/
theorem fact_hash_inner_whitespace_counterexample :
    ((pyLower ['a', ' ', 'b']).filter (fun c => !c.isWhitespace)
      = (pyLower ['a', 'b']).filter (fun c => !c.isWhitespace))
    ∧ fact_hash ['a', ' ', 'b'] ≠ fact_hash ['a', 'b']
    ∧ is_fact_used (mark_fact_used [] ['a', ' ', 'b']) ['a', 'b'] = false := by decide

/-- Claim C4 amended: canonicalization collapses letter case everywhere and
whitespace at the ends only — two facts that agree after case-folding, up to
extra leading/trailing whitespace, share one canonical hash, and `IsUsed` on
one is true right after `MarkUsed` on the other.  (Facts differing by
interior whitespace do not collide; see the counterexample.) -/
theorem fact_hash_case_outer_whitespace (s t u v u' v' : PyStr) (used : List PyStr)
    (hu : ∀ c ∈ u, c.isWhitespace = true) (hv : ∀ c ∈ v, c.isWhitespace = true)
    (hu' : ∀ c ∈ u', c.isWhitespace = true) (hv' : ∀ c ∈ v', c.isWhitespace = true)
    (hcase : pyLower s = pyLower t) :
    fact_hash (u ++ s ++ v) = fact_hash (u' ++ t ++ v')
    ∧ is_fact_used (mark_fact_used used (u ++ s ++ v)) (u' ++ t ++ v') = true := by
  have heq : fact_hash (u ++ s ++ v) = fact_hash (u' ++ t ++ v') := by
    rw [fact_hash_outer_ws_core u s v hu hv, fact_hash_outer_ws_core u' t v' hu' hv', hcase]
  refine ⟨heq, ?_⟩
  unfold is_fact_used mark_fact_used
  rw [← heq]
  simp [List.contains_cons]

/-- Witness for claim C4 (amended): `' AB'` and `'ab '` collide. -/
theorem fact_hash_case_outer_whitespace_witness :
    fact_hash ([' '] ++ "AB".data ++ []) = fact_hash ([] ++ "ab".data ++ [' '])
    ∧ is_fact_used (mark_fact_used [] ([' '] ++ "AB".data ++ []))
        ([] ++ "ab".data ++ [' ']) = true :=
  fact_hash_case_outer_whitespace "AB".data "ab".data [' '] [] [] [' '] []
    (by decide) (by decide) (by decide) (by decide) (by decide)

theorem guf_aux_all_none :
    ∀ (n : Nat) (rs : List (Option PyStr)) (used : List PyStr),
      (∀ r ∈ rs, r = none) → 1 ≤ n →
      (generate_unique_fact_aux n rs used).1 = fallbackTryingBest := by
  intro n
  induction n with
  | zero => intro rs used _ h1; exact absurd h1 (by omega)
  | succ n ih =>
    intro rs used h _
    cases rs with
    | nil =>
      by_cases hn : n = 0
      · subst hn; rfl
      · have heq : generate_unique_fact_aux (n + 1) [] used
            = generate_unique_fact_aux n [] used := by
          simp [generate_unique_fact_aux, takeResp, hn]
        rw [heq]
        exact ih [] used (by simp) (by omega)
    | cons r rest =>
      have hr : r = none := h r (List.mem_cons_self r rest)
      subst hr
      by_cases hn : n = 0
      · subst hn; rfl
      · have heq : generate_unique_fact_aux (n + 1) (none :: rest) used
            = generate_unique_fact_aux n rest used := by
          simp [generate_unique_fact_aux, takeResp, hn]
        rw [heq]
        exact ih rest used (fun r' hr' => h r' (List.mem_cons_of_mem none hr')) (by omega)

theorem guf_aux_consumed :
    ∀ (n : Nat) (rs : List (Option PyStr)) (used : List PyStr),
      ∃ k, k ≤ n ∧ (generate_unique_fact_aux n rs used).2.2.2 = rs.drop k := by
  intro n
  induction n with
  | zero => intro rs used; exact ⟨0, Nat.le_refl 0, rfl⟩
  | succ n ih =>
    intro rs used
    cases rs with
    | nil =>
      by_cases hn : n = 0
      · subst hn; exact ⟨1, by omega, rfl⟩
      · have heq : generate_unique_fact_aux (n + 1) [] used
            = generate_unique_fact_aux n [] used := by
          simp [generate_unique_fact_aux, takeResp, hn]
        rw [heq]
        obtain ⟨k, hk, hdrop⟩ := ih [] used
        exact ⟨k, by omega, by simpa using hdrop⟩
    | cons r rest =>
      cases r with
      | none =>
        by_cases hn : n = 0
        · subst hn; exact ⟨1, by omega, rfl⟩
        · have heq : generate_unique_fact_aux (n + 1) (none :: rest) used
              = generate_unique_fact_aux n rest used := by
            simp [generate_unique_fact_aux, takeResp, hn]
          rw [heq]
          obtain ⟨k, hk, hdrop⟩ := ih rest used
          exact ⟨k + 1, by omega, by simpa using hdrop⟩
      | some fact =>
        by_cases hu : is_fact_used used fact
        · have heq : generate_unique_fact_aux (n + 1) (some fact :: rest) used
              = generate_unique_fact_aux n rest used := by
            simp [generate_unique_fact_aux, takeResp, hu]
          rw [heq]
          obtain ⟨k, hk, hdrop⟩ := ih rest used
          exact ⟨k + 1, by omega, by simpa using hdrop⟩
        · have heq : (generate_unique_fact_aux (n + 1) (some fact :: rest) used).2.2.2
              = rest := by
            simp [generate_unique_fact_aux, takeResp, hu]
          exact ⟨1, by omega, by simpa using heq⟩

/-- Claim C2: if the generative adapter raises on every call, the fact
entry point still returns one of the two fixed literal fallback strings
(never an exception — the embedding is total), and any run of
`generate_unique_fact` consumes at most 5 adapter responses before
returning a string. -/
theorem generate_fact_adapter_failure (c : RagCall) (used : List PyStr)
    (h : ∀ r ∈ c.responses, r = none) :
    ((generate_player_fact_with_rag c used).1 = fallbackTryingBest
      ∨ (generate_player_fact_with_rag c used).1 = fallbackPersistence)
    ∧ ∀ (rs : List (Option PyStr)) (t : List PyStr),
        ∃ k, k ≤ 5 ∧ (generate_unique_fact rs t).2.2.2 = rs.drop k := by
  constructor
  · left
    have main : ∀ rs' : List (Option PyStr), (∀ r ∈ rs', r = none) →
        (generate_unique_fact rs' used).1 = fallbackTryingBest := fun rs' h' =>
      guf_aux_all_none 5 rs' used h' (by omega)
    unfold generate_player_fact_with_rag
    by_cases hctx : (ragContextById c.user_id c.store).isEmpty
    · simp only [hctx, if_true]
      exact main c.responses h
    · simp only [hctx, Bool.false_eq_true, if_false]
      cases hres : c.responses with
      | nil => simp only [takeResp]; exact main [] (by simp)
      | cons r rest =>
        have hr : r = none := h r (hres ▸ List.mem_cons_self r rest)
        subst hr
        simp only [takeResp]
        exact main rest (fun r' hr' => h r' (hres ▸ List.mem_cons_of_mem none hr'))
  · intro rs t
    exact guf_aux_consumed 5 rs t

/-- Witness for claim C2: a call whose five adapter responses all raise. -/
theorem generate_fact_adapter_failure_witness :
    (generate_player_fact_with_rag demoFailCall []).1 = fallbackTryingBest
    ∨ (generate_player_fact_with_rag demoFailCall []).1 = fallbackPersistence :=
  (generate_fact_adapter_failure demoFailCall [] (by decide)).1

theorem guf_aux_mono :
    ∀ (n : Nat) (rs : List (Option PyStr)) (used : List PyStr) (x : PyStr),
      x ∈ used → x ∈ (generate_unique_fact_aux n rs used).2.2.1 := by
  intro n
  induction n with
  | zero => intro rs used x hx; simpa [generate_unique_fact_aux] using hx
  | succ n ih =>
    intro rs used x hx
    cases rs with
    | nil =>
      by_cases hn : n = 0
      · subst hn; simpa [generate_unique_fact_aux, takeResp] using hx
      · have heq : generate_unique_fact_aux (n + 1) [] used
            = generate_unique_fact_aux n [] used := by
          simp [generate_unique_fact_aux, takeResp, hn]
        rw [heq]; exact ih [] used x hx
    | cons r rest =>
      cases r with
      | none =>
        by_cases hn : n = 0
        · subst hn; simpa [generate_unique_fact_aux, takeResp] using hx
        · have heq : generate_unique_fact_aux (n + 1) (none :: rest) used
              = generate_unique_fact_aux n rest used := by
            simp [generate_unique_fact_aux, takeResp, hn]
          rw [heq]; exact ih rest used x hx
      | some fact =>
        by_cases hu : is_fact_used used fact
        · have heq : generate_unique_fact_aux (n + 1) (some fact :: rest) used
              = generate_unique_fact_aux n rest used := by
            simp [generate_unique_fact_aux, takeResp, hu]
          rw [heq]; exact ih rest used x hx
        · have heq : (generate_unique_fact_aux (n + 1) (some fact :: rest) used).2.2.1
              = mark_fact_used used fact := by
            simp [generate_unique_fact_aux, takeResp, hu]
          rw [heq]
          exact List.mem_cons_of_mem _ hx

theorem guf_aux_recorded :
    ∀ (n : Nat) (rs : List (Option PyStr)) (used : List PyStr),
      (generate_unique_fact_aux n rs used).2.1 = true →
      fact_hash (generate_unique_fact_aux n rs used).1 ∉ used
      ∧ fact_hash (generate_unique_fact_aux n rs used).1
          ∈ (generate_unique_fact_aux n rs used).2.2.1 := by
  intro n
  induction n with
  | zero => intro rs used h; simp [generate_unique_fact_aux] at h
  | succ n ih =>
    intro rs used h
    cases rs with
    | nil =>
      by_cases hn : n = 0
      · subst hn; simp [generate_unique_fact_aux, takeResp] at h
      · have heq : generate_unique_fact_aux (n + 1) [] used
            = generate_unique_fact_aux n [] used := by
          simp [generate_unique_fact_aux, takeResp, hn]
        rw [heq] at h ⊢; exact ih [] used h
    | cons r rest =>
      cases r with
      | none =>
        by_cases hn : n = 0
        · subst hn; simp [generate_unique_fact_aux, takeResp] at h
        · have heq : generate_unique_fact_aux (n + 1) (none :: rest) used
              = generate_unique_fact_aux n rest used := by
            simp [generate_unique_fact_aux, takeResp, hn]
          rw [heq] at h ⊢; exact ih rest used h
      | some fact =>
        by_cases hu : is_fact_used used fact
        · have heq : generate_unique_fact_aux (n + 1) (some fact :: rest) used
              = generate_unique_fact_aux n rest used := by
            simp [generate_unique_fact_aux, takeResp, hu]
          rw [heq] at h ⊢; exact ih rest used h
        · have heq : generate_unique_fact_aux (n + 1) (some fact :: rest) used
              = (fact, true, mark_fact_used used fact, rest) := by
            simp [generate_unique_fact_aux, takeResp, hu]
          rw [heq]
          constructor
          · have : used.contains (fact_hash fact) = false := by
              simpa [is_fact_used] using hu
            simpa using this
          · exact List.mem_cons_self _ _

theorem general_player_fact_not_recorded (target : PyStr) (rs : List (Option PyStr))
    (used : List PyStr) : (generate_general_player_fact target rs used).2.1 = false
      ∧ (generate_general_player_fact target rs used).2.2.1 = used := by
  cases rs with
  | nil => exact ⟨rfl, rfl⟩
  | cons r rest => cases r with
    | none => exact ⟨rfl, rfl⟩
    | some fact => exact ⟨rfl, rfl⟩

theorem rag_mono (c : RagCall) (used : List PyStr) (x : PyStr) (hx : x ∈ used) :
    x ∈ (generate_player_fact_with_rag c used).2.2 := by
  unfold generate_player_fact_with_rag
  by_cases hctx : (ragContextById c.user_id c.store).isEmpty
  · simp only [hctx, if_true]
    exact guf_aux_mono 5 c.responses used x hx
  · simp only [hctx, Bool.false_eq_true, if_false]
    cases c.responses with
    | nil =>
      simp only [takeResp]
      exact guf_aux_mono 5 [] used x hx
    | cons r rest =>
      cases r with
      | none =>
        simp only [takeResp]
        exact guf_aux_mono 5 rest used x hx
      | some fact =>
        simp only [takeResp]
        by_cases hu : is_fact_used used fact
        · simp only [hu, if_true]
          rw [(general_player_fact_not_recorded _ rest used).2]
          exact hx
        · simp only [hu, Bool.false_eq_true, if_false]
          exact List.mem_cons_of_mem _ hx

theorem rag_recorded (c : RagCall) (used : List PyStr)
    (h : (generate_player_fact_with_rag c used).2.1 = true) :
    fact_hash (generate_player_fact_with_rag c used).1 ∉ used
    ∧ fact_hash (generate_player_fact_with_rag c used).1
        ∈ (generate_player_fact_with_rag c used).2.2 := by
  unfold generate_player_fact_with_rag at h ⊢
  by_cases hctx : (ragContextById c.user_id c.store).isEmpty
  · simp only [hctx, if_true] at h ⊢
    exact guf_aux_recorded 5 c.responses used h
  · simp only [hctx, Bool.false_eq_true, if_false] at h ⊢
    cases hres : c.responses with
    | nil =>
      rw [hres] at h
      simp only [takeResp] at h ⊢
      exact guf_aux_recorded 5 [] used h
    | cons r rest =>
      rw [hres] at h
      cases r with
      | none =>
        simp only [takeResp] at h ⊢
        exact guf_aux_recorded 5 rest used h
      | some fact =>
        simp only [takeResp] at h ⊢
        by_cases hu : is_fact_used used fact
        · simp only [hu, if_true] at h ⊢
          rw [(general_player_fact_not_recorded _ rest used).1] at h
          exact Bool.noConfusion h
        · simp only [hu, Bool.false_eq_true, if_false] at h ⊢
          constructor
          · have : used.contains (fact_hash fact) = false := by
              simpa [is_fact_used] using hu
            simpa using this
          · exact List.mem_cons_self _ _

theorem runRagSeq_gated_strong (calls : List RagCall) :
    ∀ used : List PyStr,
      List.Pairwise (fun a b => fact_hash a ≠ fact_hash b)
        ((runRagSeq calls used).1.filterMap (fun p => if p.2 then some p.1 else none))
      ∧ ∀ g ∈ (runRagSeq calls used).1.filterMap (fun p => if p.2 then some p.1 else none),
          fact_hash g ∉ used := by
  induction calls with
  | nil => intro used; simp [runRagSeq]
  | cons c cs ih =>
    intro used
    simp only [runRagSeq]
    set r := generate_player_fact_with_rag c used with hr
    obtain ⟨ihp, ihf⟩ := ih r.2.2
    cases hrec : r.2.1 with
    | false =>
      constructor
      · simpa [List.filterMap_cons, hrec] using ihp
      · intro g hg
        have hg' : g ∈ (runRagSeq cs r.2.2).1.filterMap
            (fun p => if p.2 then some p.1 else none) := by
          simpa [List.filterMap_cons, hrec] using hg
        intro hcontra
        exact ihf g hg' (rag_mono c used _ hcontra)
    | true =>
      obtain ⟨hfresh, hmem⟩ := rag_recorded c used hrec
      rw [← hr] at hfresh hmem
      have hform : ((r.1, true) :: (runRagSeq cs r.2.2).1).filterMap
          (fun p => if p.2 then some p.1 else none)
          = r.1 :: (runRagSeq cs r.2.2).1.filterMap
              (fun p => if p.2 then some p.1 else none) := by
        simp
      constructor
      · rw [hform]
        refine List.Pairwise.cons ?_ ihp
        intro g hg hEq
        exact ihf g hg (hEq ▸ hmem)
      · intro g hg
        rw [hform] at hg
        rcases List.mem_cons.mp hg with rfl | hg'
        · exact hfresh
        · intro hcontra
          exact ihf g hg' (rag_mono c used _ hcontra)

/-- Claim C1 counterexample: with one subject message indexed and an
adapter that keeps producing the same fact string `f`, two consecutive
calls of the fact entry point both return `f` — the second call's RAG
attempt finds `f` already used and falls back to the general-player path,
which performs no uniqueness check — so a 2-fact sequence, produced without
touching the terminal fallback budget, repeats a canonical hash. -/
theorem rag_fact_repetition_counterexample :
    ((runRagSeq [demoCall1, demoCall2] []).1.map Prod.fst = ["f".data, "f".data])
    ∧ ¬ List.Pairwise (fun a b => fact_hash a ≠ fact_hash b)
        ((runRagSeq [demoCall1, demoCall2] []).1.map Prod.fst) := by decide

/-- Claim C1 amended: across any call sequence, the returned facts that the
orchestrator records in the uniqueness tracker at return time (the
uniqueness-gated returns of the RAG attempt and of the generic retry loop)
have pairwise distinct canonical hashes; returns of the general-player
fallback and the two terminal literals bypass the gate and may repeat. -/
theorem rag_gated_facts_pairwise_distinct (calls : List RagCall) (used₀ : List PyStr) :
    List.Pairwise (fun a b => fact_hash a ≠ fact_hash b)
      ((runRagSeq calls used₀).1.filterMap (fun p => if p.2 then some p.1 else none)) :=
  (runRagSeq_gated_strong calls used₀).1

/-- Claim C6 counterexample: with 8 messages mentioning user `A1` indexed
(and none authored by `A1`), the context assembled for a fact request about
`A1` contains 12 mention-snippets, not at most 5 — the id-based context
fetch already includes up to `15 / 2 = 7` mention messages and the extra
mention search appends up to 5 more (re-reading duplicates). -/
theorem ragContextById_mention_overflow_counterexample :
    (ragContextById "A1".data demoStore8).countP
        (fun d => !(d.author_id == "A1".data)) = 12
    ∧ (∀ d ∈ ragContextById "A1".data demoStore8,
        d.mention_user_ids.contains "A1".data = true)
    ∧ ¬ ((ragContextById "A1".data demoStore8).countP
        (fun d => !(d.author_id == "A1".data)) ≤ 5) := by decide

/-- Claim C6 amended: for a fact request with a known stable user id the
assembled context splits as own-messages followed by mention-messages, with
at most 15 own messages and at most 12 mention entries (up to 7 from the
context fetch plus up to 5 from the mention search, possibly duplicated);
all own-messages precede all mention-messages. -/
theorem ragContextById_shape (uid : PyStr) (store : List StoredMessage) :
    ∃ own mens, ragContextById uid store = own ++ mens
      ∧ own.length ≤ 15 ∧ (∀ d ∈ own, d.author_id = uid)
      ∧ mens.length ≤ 12 ∧ (∀ d ∈ mens, uid ∈ d.mention_user_ids) := by
  refine ⟨findSortedLimited (fun d => d.author_id == uid) 15 store,
    findSortedLimited (fun d => d.mention_user_ids.contains uid) 7 store
      ++ findSortedLimited (fun d => d.mention_user_ids.contains uid) 5 store,
    ?_, ?_, ?_, ?_, ?_⟩
  · show ragContextById uid store
      = findSortedLimited (fun d => d.author_id == uid) 15 store
        ++ (findSortedLimited (fun d => d.mention_user_ids.contains uid) ((15 : Nat) / 2) store
          ++ findSortedLimited (fun d => d.mention_user_ids.contains uid) 5 store)
    unfold ragContextById get_player_context_by_id search_mentions
    rw [List.append_assoc]
  · exact length_findSortedLimited _ 15 store
  · intro d hd
    exact eq_of_beq (mem_findSortedLimited hd).2
  · calc (findSortedLimited (fun d => d.mention_user_ids.contains uid) 7 store
        ++ findSortedLimited (fun d => d.mention_user_ids.contains uid) 5 store).length
        = (findSortedLimited (fun d => d.mention_user_ids.contains uid) 7 store).length
          + (findSortedLimited (fun d => d.mention_user_ids.contains uid) 5 store).length :=
          List.length_append _ _
      _ ≤ 7 + 5 := Nat.add_le_add (length_findSortedLimited _ 7 store)
          (length_findSortedLimited _ 5 store)
  · intro d hd
    rcases List.mem_append.mp hd with hd' | hd' <;>
      · have := (mem_findSortedLimited hd').2
        simpa using this

theorem compute_checksum_perm (s t : PyStr) (h : s.Perm t) :
    compute_checksum s = compute_checksum t := by
  unfold compute_checksum
  rw [(h.map checksumCharScore).sum_eq]

theorem splitOnceDash_append (enc chk : PyStr) (hdash : '-' ∉ enc) :
    splitOnceDash (enc ++ '-' :: chk) = some (enc, chk) := by
  induction enc with
  | nil => simp [splitOnceDash]
  | cons c cs ih =>
    have hc : ¬ c = '-' := fun hcc => hdash (hcc ▸ List.mem_cons_self c cs)
    have ih' := ih (fun hm => hdash (List.mem_cons_of_mem c hm))
    simp [splitOnceDash, hc, ih']

theorem acceptsCode_append (enc chk : PyStr) (hdash : '-' ∉ enc) :
    acceptsCode (enc ++ '-' :: chk)
      = (!enc.isEmpty && !chk.isEmpty
          && !(decode_score_code enc).contains '?'
          && ((decode_score_code enc).count '|' == 1)
          && (compute_checksum (decode_score_code enc) == chk)) := by
  unfold acceptsCode decode_and_verify
  rw [splitOnceDash_append enc chk hdash]
  by_cases h1 : enc.isEmpty <;> by_cases h2 : chk.isEmpty <;>
    by_cases h3 : '?' ∈ decode_score_code enc <;>
      by_cases h4 : (decode_score_code enc).count '|' = 1 <;>
        cases hb : (compute_checksum (decode_score_code enc) == chk) <;>
          simp [h1, h2, h3, h4, hb]

/-- Claim C10: the score checksum is permutation-invariant — rearranging the
characters of the decoded string never changes `compute_checksum` — and
consequently `decode_and_verify` accepts any code whose encoded part is a
permutation of an accepted code's encoded part with the same checksum part
(encoded parts, being the segment before the first `'-'`, never contain
`'-'`; the decoded form keeps exactly one `'|'` automatically, since
permutation preserves character counts). -/
theorem checksum_perm_invariant (s t : PyStr) (hperm : s.Perm t) :
    compute_checksum s = compute_checksum t
    ∧ ∀ (enc enc' chk : PyStr), enc.Perm enc' → '-' ∉ enc →
        acceptsCode (enc ++ '-' :: chk) = true → acceptsCode (enc' ++ '-' :: chk) = true := by
  refine ⟨compute_checksum_perm s t hperm, ?_⟩
  intro enc enc' chk hp hdash hacc
  have hdash' : '-' ∉ enc' := fun hm => hdash (hp.mem_iff.mpr hm)
  rw [acceptsCode_append enc chk hdash] at hacc
  rw [acceptsCode_append enc' chk hdash']
  have hpd : (decode_score_code enc).Perm (decode_score_code enc') := hp.map obfDecodeChar
  simp only [Bool.and_eq_true, Bool.not_eq_true'] at hacc
  obtain ⟨⟨⟨⟨h1, h2⟩, h3⟩, h4⟩, h5⟩ := hacc
  simp only [Bool.and_eq_true, Bool.not_eq_true']
  refine ⟨⟨⟨⟨?_, h2⟩, ?_⟩, ?_⟩, ?_⟩
  · cases henc : enc with
    | nil => rw [henc] at h1; simp at h1
    | cons a as =>
      have hlen := hp.length_eq
      rw [henc] at hlen
      cases enc' with
      | nil => simp at hlen
      | cons b bs => rfl
  · have hnot : ¬ ('?' ∈ decode_score_code enc') := by
      intro hm
      have hm' : '?' ∈ decode_score_code enc := hpd.mem_iff.mpr hm
      have hc : (decode_score_code enc).contains '?' = true := by simpa using hm'
      rw [hc] at h3
      exact Bool.noConfusion h3
    simpa using hnot
  · rw [← hpd.count_eq]
    exact h4
  · rw [← compute_checksum_perm _ _ hpd]
    exact h5

/-- Witness for claim C10: `WYAR-40` decodes to `15|3` with checksum 40 and
is accepted; its permutation `YWRA-40` (decoding to `513|`) is accepted
too. -/
theorem checksum_perm_invariant_witness :
    acceptsCode ("YWRA".data ++ '-' :: "40".data) = true :=
  (checksum_perm_invariant "15|3".data "513|".data (by decide)).2
    "WYAR".data "YWRA".data "40".data (by decide) (by decide) (by decide)
